import Mathlib

/-!
Shallow embedding of the invariant-enforcement core of the assessment
platform (backend/models and backend/routes).  The document store is
modelled as a list of records; each Mongo write (updateMany, save,
findByIdAndUpdate, bulkWrite updateOne) becomes an explicit function on
that list, applied in the order the source performs the writes.
-/

/-- A questionnaire document: Mongo `_id` is `qid`, plus the `isActive`
flag (backend/models/Questionnaire.js). -/
structure Questionnaire where
  qid : Nat
  isActive : Bool
deriving DecidableEq, Repr

namespace Questionnaire

/-- Schema construction: `isActive` has schema default `true`
(Questionnaire.js, `isActive: { type: Boolean, default: true }`). -/
def mk' (id : Nat) (isActiveField : Option Bool) : Questionnaire :=
  { qid := id, isActive := isActiveField.getD true }

/-- First write of `activate`: `updateMany({_id: {$ne: this._id}}, {isActive: false})`. -/
def deactivateOthersStep (s : List Questionnaire) (id : Nat) : List Questionnaire :=
  s.map fun q => if q.qid ≠ id then { q with isActive := false } else q

/-- Second write of `activate`: `this.isActive = true; this.save()`. -/
def saveActiveStep (s : List Questionnaire) (id : Nat) : List Questionnaire :=
  s.map fun q => if q.qid = id then { q with isActive := true } else q

/-- Instance method `questionnaireSchema.methods.activate`: deactivate all
others, then save the target as active. -/
def activate (s : List Questionnaire) (id : Nat) : List Questionnaire :=
  saveActiveStep (deactivateOthersStep s id) id

/-- Number of active questionnaires in the store. -/
def countActive (s : List Questionnaire) : Nat :=
  s.countP fun q => q.isActive

/-- State after the first write of `router.post('/')` in
routes/questionnaires.js: `new Questionnaire(req.body); await questionnaire.save()`. -/
def createIntermediate (s : List Questionnaire) (q : Questionnaire) : List Questionnaire :=
  s ++ [q]

/-- Full `router.post('/')` flow: save the new document, then, if it is
active, `updateMany({_id: {$ne: questionnaire._id}}, {isActive: false})`. -/
def createQuestionnaire (s : List Questionnaire) (q : Questionnaire) : List Questionnaire :=
  let s1 := createIntermediate s q
  if q.isActive then deactivateOthersStep s1 q.qid else s1

/-- State after the first write of `router.put('/:id')`:
`findByIdAndUpdate(id, req.body, {new: true})` with `body` the new
`isActive` value. -/
def updateIntermediate (s : List Questionnaire) (id : Nat) (newActive : Bool) :
    List Questionnaire :=
  s.map fun q => if q.qid = id then { q with isActive := newActive } else q

/-- Full `router.put('/:id')` flow: apply the update, then, if the updated
document reports `isActive`, deactivate all others.  When the id is
missing the route answers 404 and performs no second write. -/
def updateQuestionnaire (s : List Questionnaire) (id : Nat) (newActive : Bool) :
    List Questionnaire :=
  match (updateIntermediate s id newActive).find? (fun r => r.qid == id) with
  | some r =>
    if r.isActive then deactivateOthersStep (updateIntermediate s id newActive) id
    else updateIntermediate s id newActive
  | none => updateIntermediate s id newActive

theorem activate_eq_map (s : List Questionnaire) (id : Nat) :
    activate s id =
      s.map fun q =>
        if q.qid = id then { q with isActive := true } else { q with isActive := false } := by
  unfold activate saveActiveStep deactivateOthersStep
  rw [List.map_map]
  refine List.map_congr_left fun q _ => ?_
  by_cases h : q.qid = id <;> simp [h, Function.comp]

theorem countP_qid_eq_one :
    ∀ (s : List Questionnaire) (id : Nat),
      (s.map Questionnaire.qid).Nodup → id ∈ s.map Questionnaire.qid →
      (s.countP fun q => q.qid == id) = 1 := by
  intro s
  induction s with
  | nil => intro id _ hmem; simp at hmem
  | cons a t ih =>
    intro id hnd hmem
    simp only [List.map_cons, List.nodup_cons] at hnd
    rcases List.mem_cons.mp hmem with h | h
    · subst h
      rw [List.countP_cons]
      have hzero : (t.countP fun q => q.qid == a.qid) = 0 := by
        apply List.countP_eq_zero.mpr
        intro q hq
        simp only [beq_iff_eq]
        intro hqid
        exact hnd.1 (hqid ▸ List.mem_map_of_mem Questionnaire.qid hq)
      simp [hzero]
    · rw [List.countP_cons]
      have hne : ¬ (a.qid == id) = true := by
        simp only [beq_iff_eq]
        intro hqid
        exact hnd.1 (hqid ▸ h)
      simp only [hne, if_neg]
      simpa using ih id hnd.2 h

theorem countP_qid_eq_zero (s : List Questionnaire) (id : Nat)
    (h : id ∉ s.map Questionnaire.qid) :
    (s.countP fun q => q.qid == id) = 0 := by
  apply List.countP_eq_zero.mpr
  intro q hq
  simp only [beq_iff_eq]
  intro hqid
  exact h (hqid ▸ List.mem_map_of_mem Questionnaire.qid hq)

end Questionnaire

/-- A scoring-band document (backend/models/ScoringRule.js): Mongo `_id` is
`rid`; `categoryId` is optional (null/missing modelled as `none`). -/
structure ScoringRule where
  rid : Nat
  questionnaireId : Nat
  categoryId : Option Nat
  minPercentage : Int
  maxPercentage : Int
  levelName : String
deriving DecidableEq, Repr

namespace ScoringRule

/-- Category matching condition of the `pre('save')` hook: a candidate with
a category is compared only against rules with the same `categoryId`; a
candidate without one only against rules whose `categoryId` is null or
missing. -/
def categoryScopeMatch (cand : Option Nat) (existing : Option Nat) : Bool :=
  match cand with
  | some x => existing == some x
  | none => existing == none

/-- Overlap conditions of the `pre('save')` hook (`$or` of the three
closed-interval intersection cases). -/
def rangesOverlap (cMin cMax eMin eMax : Int) : Bool :=
  (decide (eMin ≤ cMin) && decide (cMin ≤ eMax)) ||
  (decide (eMin ≤ cMax) && decide (cMax ≤ eMax)) ||
  (decide (cMin ≤ eMin) && decide (eMax ≤ cMax))

/-- The hook's conflict query: `findOne` over the collection for a rule of
the same questionnaire, different `_id`, matching category scope, whose
range intersects the candidate range. -/
def overlapConflict (rules : List ScoringRule) (rid qid : Nat) (cat : Option Nat)
    (mn mx : Int) : Option ScoringRule :=
  rules.find? fun e =>
    e.rid != rid && e.questionnaireId == qid &&
    categoryScopeMatch cat e.categoryId &&
    rangesOverlap mn mx e.minPercentage e.maxPercentage

/-- Errors surfaced by the band write paths. -/
inductive BandError where
  | invalidRange : BandError
  | rangeOverlap (conflict : ScoringRule) : BandError
  | notFound : BandError
deriving DecidableEq, Repr

/-- Save path of a new rule (`new ScoringRule(...); save()` through the
`pre('save')` hook): reject `min >= max`, then reject on a scope-matched
range conflict, else append the document. -/
def insertBand (rules : List ScoringRule) (c : ScoringRule) :
    Except BandError (List ScoringRule) :=
  if c.minPercentage ≥ c.maxPercentage then .error .invalidRange
  else
    match overlapConflict rules c.rid c.questionnaireId c.categoryId
        c.minPercentage c.maxPercentage with
    | some e => .error (.rangeOverlap e)
    | none => .ok (rules ++ [c])

/-- Match predicate of `getLevelForPercentage`'s `findOne`: same
questionnaire, same category value, `minPercentage <= p <= maxPercentage`. -/
def levelRuleMatch (qid : Nat) (cat : Option Nat) (p : Int) (e : ScoringRule) : Bool :=
  e.questionnaireId == qid && e.categoryId == cat &&
  decide (e.minPercentage ≤ p) && decide (p ≤ e.maxPercentage)

/-- Static `getLevelForPercentage`: the level of the first matching rule,
or the sentinel string when none matches.  A pure read of the store. -/
def getLevelForPercentage (rules : List ScoringRule) (qid : Nat) (cat : Option Nat)
    (p : Int) : String :=
  match rules.find? (levelRuleMatch qid cat p) with
  | some r => r.levelName
  | none => "Unknown"

end ScoringRule

/-- A question document (backend/models/Question.js): Mongo `_id` is `qid`,
with its questionnaire and order number. -/
structure Question where
  qid : Nat
  questionnaireId : Nat
  orderNumber : Int
deriving DecidableEq, Repr

namespace Question

/-- Errors surfaced by the order-number write paths. -/
inductive OrderError where
  | duplicateOrder (questionId : Nat) (orderNumber : Int) : OrderError
deriving DecidableEq, Repr

/-- Static `getNextOrderNumber`: highest order number among the
questionnaire's existing questions plus one, or 1 when it has none
(`findOne({questionnaireId}).sort({orderNumber: -1})`). -/
def getNextOrderNumber (store : List Question) (qnnId : Nat) : Int :=
  match ((store.filter fun q => q.questionnaireId == qnnId).map
      Question.orderNumber).max? with
  | some m => m + 1
  | none => 1

/-- Create path, `router.post('/')` of routes/questions.js plus the
`pre('save')` hook: a falsy or missing `orderNumber` is replaced by
`getNextOrderNumber`; the hook rejects when another question of the same
questionnaire already holds the number; otherwise the document is
inserted. -/
def assignOnCreate (store : List Question) (qid qnnId : Nat)
    (orderNumberField : Option Int) : Except OrderError (List Question) :=
  let ord := match orderNumberField with
    | none => getNextOrderNumber store qnnId
    | some o => if o = 0 then getNextOrderNumber store qnnId else o
  if store.any fun e =>
      e.questionnaireId == qnnId && e.orderNumber == ord && e.qid != qid then
    .error (.duplicateOrder qid ord)
  else
    .ok (store ++ [⟨qid, qnnId, ord⟩])

/-- One `updateOne` of the `bulkWrite` in `reorderQuestions`: filter
`{_id: questionId, questionnaireId}`, update `{orderNumber}`.  A write
leaving two documents of one questionnaire with the same order number is
rejected by the compound unique index on (questionnaireId, orderNumber);
an unmatched filter is a no-op. -/
def bulkUpdateOne (store : List Question) (qnnId questionId : Nat) (newOrder : Int) :
    Except OrderError (List Question) :=
  match store.find? (fun q => q.qid == questionId && q.questionnaireId == qnnId) with
  | none => .ok store
  | some q =>
    if store.any fun e =>
        e.qid != q.qid && e.questionnaireId == q.questionnaireId &&
        e.orderNumber == newOrder then
      .error (.duplicateOrder questionId newOrder)
    else
      .ok (store.map fun e =>
        if e.qid = questionId ∧ e.questionnaireId = qnnId then
          { e with orderNumber := newOrder }
        else e)

/-- Static `reorderQuestions`: an ordered `bulkWrite` of the per-item
updates.  An ordered bulk write stops at the first failing operation;
writes already applied stay in place.  The result is the store after
execution together with the error that aborted it, if any. -/
def reorderQuestions (store : List Question) (qnnId : Nat)
    (items : List (Nat × Int)) : List Question × Option OrderError :=
  match items with
  | [] => (store, none)
  | (questionId, newOrder) :: rest =>
    match bulkUpdateOne store qnnId questionId newOrder with
    | .error e => (store, some e)
    | .ok s' => reorderQuestions s' qnnId rest

/-- Delete path, `router.delete('/:id')`: `findByIdAndDelete` removes the
document with that id. -/
def deleteQuestion (store : List Question) (qid : Nat) : List Question :=
  store.filter fun q => q.qid ≠ qid

end Question

namespace Questionnaire

theorem countActive_deactivateOthersStep (l : List Questionnaire) (id : Nat) :
    countActive (deactivateOthersStep l id)
      = l.countP fun q => q.qid == id && q.isActive := by
  unfold countActive deactivateOthersStep
  rw [List.countP_map]
  have hfun : ((fun q => q.isActive) ∘ fun q : Questionnaire =>
      if q.qid ≠ id then { q with isActive := false } else q)
      = fun q : Questionnaire => q.qid == id && q.isActive := by
    funext q
    by_cases h : q.qid = id <;> simp [h, Function.comp]
  rw [hfun]

theorem active_mem_deactivateOthersStep (l : List Questionnaire) (id : Nat) :
    ∀ r ∈ deactivateOthersStep l id, r.isActive = true → r.qid = id := by
  intro r hr hact
  unfold deactivateOthersStep at hr
  obtain ⟨x, hx, rfl⟩ := List.mem_map.mp hr
  by_cases h : x.qid = id
  · simp [h]
  · simp [h] at hact

theorem updateIntermediate_find? (s : List Questionnaire) (id : Nat) (b : Bool) :
    (updateIntermediate s id b).find? (fun r => r.qid == id)
      = (s.find? (fun r => r.qid == id)).map
          (fun q => if q.qid = id then { q with isActive := b } else q) := by
  unfold updateIntermediate
  rw [List.find?_map]
  have hfun : ((fun r : Questionnaire => r.qid == id) ∘ fun q : Questionnaire =>
      if q.qid = id then { q with isActive := b } else q)
      = fun r : Questionnaire => r.qid == id := by
    funext q
    by_cases h : q.qid = id <;> simp [h, Function.comp]
  rw [hfun]

end Questionnaire

namespace ScoringRule

theorem categoryScopeMatch_eq (cand existing : Option Nat) :
    categoryScopeMatch cand existing = (existing == cand) := by
  cases cand <;> rfl

theorem overlapConflict_pred_iff (rid qid : Nat) (cat : Option Nat) (mn mx : Int)
    (e : ScoringRule) :
    (e.rid != rid && e.questionnaireId == qid &&
        categoryScopeMatch cat e.categoryId &&
        rangesOverlap mn mx e.minPercentage e.maxPercentage) = true
      ↔ e.rid ≠ rid ∧ e.questionnaireId = qid ∧ e.categoryId = cat ∧
        (e.minPercentage ≤ mn ∧ mn ≤ e.maxPercentage ∨
         e.minPercentage ≤ mx ∧ mx ≤ e.maxPercentage ∨
         mn ≤ e.minPercentage ∧ e.maxPercentage ≤ mx) := by
  simp [categoryScopeMatch_eq, rangesOverlap, and_assoc, or_assoc]

theorem levelRuleMatch_iff (qid : Nat) (cat : Option Nat) (p : Int) (e : ScoringRule) :
    levelRuleMatch qid cat p e = true
      ↔ e.questionnaireId = qid ∧ e.categoryId = cat ∧
        e.minPercentage ≤ p ∧ p ≤ e.maxPercentage := by
  simp [levelRuleMatch, and_assoc]

end ScoringRule

/-- C1: immediately after `activate(id)` completes on an existing
questionnaire id, exactly one record of the collection has
`isActive = true`, and that record is the target, whatever the set of
active records was before the call. -/
theorem activate_exactly_one_active (s : List Questionnaire) (id : Nat)
    (hmem : id ∈ s.map Questionnaire.qid)
    (hnd : (s.map Questionnaire.qid).Nodup) :
    Questionnaire.countActive (Questionnaire.activate s id) = 1 ∧
    ∀ q ∈ Questionnaire.activate s id, q.isActive = true → q.qid = id := by
  constructor
  · rw [Questionnaire.activate_eq_map]
    unfold Questionnaire.countActive
    rw [List.countP_map]
    have hfun : ((fun q => q.isActive) ∘ fun q : Questionnaire =>
        if q.qid = id then { q with isActive := true } else { q with isActive := false })
        = fun q : Questionnaire => q.qid == id := by
      funext q
      by_cases h : q.qid = id <;> simp [h, Function.comp]
    rw [hfun]
    exact Questionnaire.countP_qid_eq_one s id hnd hmem
  · intro q hq hact
    rw [Questionnaire.activate_eq_map] at hq
    obtain ⟨x, hx, rfl⟩ := List.mem_map.mp hq
    by_cases h : x.qid = id
    · simp [h]
    · simp [h] at hact

/-- Witness for C1 at a concrete store: three questionnaires, two of them
active, then `activate 2`. -/
theorem activate_exactly_one_active_witness :
    Questionnaire.countActive
      (Questionnaire.activate [⟨1, true⟩, ⟨2, false⟩, ⟨3, true⟩] 2) = 1 ∧
    ∀ q ∈ Questionnaire.activate [⟨1, true⟩, ⟨2, false⟩, ⟨3, true⟩] 2,
      q.isActive = true → q.qid = 2 :=
  activate_exactly_one_active [⟨1, true⟩, ⟨2, false⟩, ⟨3, true⟩] 2
    (by decide) (by decide)

/-- C3 counterexample: creating questionnaire 2 as active while
questionnaire 1 is active passes through an intermediate state with two
active records (the route saves the target first and only then deactivates
the others), refuting the claimed deactivate-before-activate ordering and
its "zero active but never two" intermediate state. -/
theorem create_active_shows_two_active_between_writes :
    Questionnaire.countActive
      (Questionnaire.createIntermediate [⟨1, true⟩] ⟨2, true⟩) = 2 ∧
    Questionnaire.countActive
      (Questionnaire.createQuestionnaire [⟨1, true⟩] ⟨2, true⟩) = 1 := by
  decide

/-- C3 amended: the create and update routes write the target active first
and deactivate the others after, inline rather than through `activate`;
the final state has exactly one active record (the target), while the
intermediate state between the two writes holds one more active record
than before (so it can show two active and never zero). -/
theorem create_update_active_deactivates_after_write
    (s : List Questionnaire) (q : Questionnaire) (id : Nat) :
    (q.isActive = true → q.qid ∉ s.map Questionnaire.qid →
      Questionnaire.countActive (Questionnaire.createQuestionnaire s q) = 1 ∧
      (∀ r ∈ Questionnaire.createQuestionnaire s q, r.isActive = true → r.qid = q.qid) ∧
      Questionnaire.countActive (Questionnaire.createIntermediate s q)
        = Questionnaire.countActive s + 1) ∧
    (id ∈ s.map Questionnaire.qid → (s.map Questionnaire.qid).Nodup →
      Questionnaire.countActive (Questionnaire.updateQuestionnaire s id true) = 1 ∧
      (∀ r ∈ Questionnaire.updateQuestionnaire s id true, r.isActive = true → r.qid = id) ∧
      1 ≤ Questionnaire.countActive (Questionnaire.updateIntermediate s id true)) := by
  constructor
  · intro hact hnotmem
    have hcreate : Questionnaire.createQuestionnaire s q
        = Questionnaire.deactivateOthersStep (s ++ [q]) q.qid := by
      unfold Questionnaire.createQuestionnaire Questionnaire.createIntermediate
      simp [hact]
    refine ⟨?_, ?_, ?_⟩
    · rw [hcreate, Questionnaire.countActive_deactivateOthersStep, List.countP_append]
      have hzero : (s.countP fun r => r.qid == q.qid && r.isActive) = 0 := by
        apply List.countP_eq_zero.mpr
        intro x hx
        have hne : x.qid ≠ q.qid := by
          intro he
          exact hnotmem (he ▸ List.mem_map_of_mem Questionnaire.qid hx)
        simp [hne]
      simp [hzero, hact]
    · rw [hcreate]
      exact Questionnaire.active_mem_deactivateOthersStep (s ++ [q]) q.qid
    · unfold Questionnaire.createIntermediate Questionnaire.countActive
      rw [List.countP_append]
      simp [hact]
  · intro hmem hnd
    obtain ⟨x, hx, hxid⟩ := List.mem_map.mp hmem
    have hfind : ∃ x₀, s.find? (fun r => r.qid == id) = some x₀ ∧ x₀.qid = id := by
      have hsome : (s.find? fun r => r.qid == id).isSome := by
        apply List.find?_isSome.mpr
        exact ⟨x, hx, by simp [hxid]⟩
      obtain ⟨x₀, hx₀⟩ := Option.isSome_iff_exists.mp hsome
      exact ⟨x₀, hx₀, by simpa using List.find?_some hx₀⟩
    obtain ⟨x₀, hx₀, hx₀id⟩ := hfind
    have hupd : Questionnaire.updateQuestionnaire s id true
        = Questionnaire.deactivateOthersStep
            (Questionnaire.updateIntermediate s id true) id := by
      unfold Questionnaire.updateQuestionnaire
      rw [Questionnaire.updateIntermediate_find?, hx₀]
      simp [hx₀id]
    refine ⟨?_, ?_, ?_⟩
    · rw [hupd, Questionnaire.countActive_deactivateOthersStep]
      unfold Questionnaire.updateIntermediate
      rw [List.countP_map]
      have hfun : ((fun r => r.qid == id && r.isActive) ∘ fun r : Questionnaire =>
          if r.qid = id then { r with isActive := true } else r)
          = fun r : Questionnaire => r.qid == id := by
        funext r
        by_cases h : r.qid = id <;> simp [h, Function.comp]
      rw [hfun]
      exact Questionnaire.countP_qid_eq_one s id hnd hmem
    · rw [hupd]
      exact Questionnaire.active_mem_deactivateOthersStep _ id
    · unfold Questionnaire.countActive
      apply Nat.succ_le_of_lt
      apply List.countP_pos_iff.mpr
      refine ⟨if x₀.qid = id then { x₀ with isActive := true } else x₀, ?_, ?_⟩
      · exact List.mem_map_of_mem _ (List.mem_of_find?_eq_some hx₀)
      · simp [hx₀id]

/-- Witness for C3's amended theorem: create ⟨2,true⟩ over the store
[⟨1,true⟩], and update questionnaire 1 to active in the same store. -/
theorem create_update_active_deactivates_after_write_witness :
    (Questionnaire.countActive
        (Questionnaire.createQuestionnaire [⟨1, true⟩] ⟨2, true⟩) = 1 ∧
      (∀ r ∈ Questionnaire.createQuestionnaire [⟨1, true⟩] ⟨2, true⟩,
        r.isActive = true → r.qid = 2) ∧
      Questionnaire.countActive
        (Questionnaire.createIntermediate [⟨1, true⟩] ⟨2, true⟩)
        = Questionnaire.countActive [⟨1, true⟩] + 1) ∧
    (Questionnaire.countActive
        (Questionnaire.updateQuestionnaire [⟨1, true⟩] 1 true) = 1 ∧
      (∀ r ∈ Questionnaire.updateQuestionnaire [⟨1, true⟩] 1 true,
        r.isActive = true → r.qid = 1) ∧
      1 ≤ Questionnaire.countActive
        (Questionnaire.updateIntermediate [⟨1, true⟩] 1 true)) :=
  ⟨(create_update_active_deactivates_after_write [⟨1, true⟩] ⟨2, true⟩ 1).1
      (by decide) (by decide),
    (create_update_active_deactivates_after_write [⟨1, true⟩] ⟨2, true⟩ 1).2
      (by decide) (by decide)⟩

/-- C10: a questionnaire created without an explicit `isActive` value gets
the schema default `true`, and the bare create path stores the new record
as an active questionnaire. -/
theorem create_default_isActive_true (s : List Questionnaire) (id : Nat) :
    (Questionnaire.mk' id none).isActive = true ∧
    Questionnaire.mk' id none
      ∈ Questionnaire.createQuestionnaire s (Questionnaire.mk' id none) := by
  refine ⟨rfl, ?_⟩
  unfold Questionnaire.createQuestionnaire Questionnaire.createIntermediate
  have hact : (Questionnaire.mk' id none).isActive = true := rfl
  simp only [hact, if_true]
  unfold Questionnaire.deactivateOthersStep
  refine List.mem_map.mpr ⟨Questionnaire.mk' id none, by simp, ?_⟩
  simp

/-- C2: for a candidate with `min < max` and a fresh document id,
`insertBand` fails with
`RangeOverlap` exactly when some existing band of the same
(questionnaireId, categoryId) scope intersects it as a closed interval;
in particular {0,33} then {33,66} on one scope fails with the first band
as conflict, while {34,66} after {0,33} succeeds. -/
theorem insertBand_rangeOverlap_iff (rules : List ScoringRule) (c : ScoringRule)
    (h : c.minPercentage < c.maxPercentage)
    (hfresh : ∀ e ∈ rules, e.rid ≠ c.rid) :
    ((∃ e, ScoringRule.insertBand rules c = .error (.rangeOverlap e)) ↔
      ∃ e ∈ rules, e.questionnaireId = c.questionnaireId ∧
        e.categoryId = c.categoryId ∧
        (e.minPercentage ≤ c.minPercentage ∧ c.minPercentage ≤ e.maxPercentage ∨
         e.minPercentage ≤ c.maxPercentage ∧ c.maxPercentage ≤ e.maxPercentage ∨
         c.minPercentage ≤ e.minPercentage ∧ e.maxPercentage ≤ c.maxPercentage)) ∧
    ScoringRule.insertBand [⟨1, 1, none, 0, 33, "Low"⟩] ⟨2, 1, none, 33, 66, "Mid"⟩
      = .error (.rangeOverlap ⟨1, 1, none, 0, 33, "Low"⟩) ∧
    ScoringRule.insertBand [⟨1, 1, none, 0, 33, "Low"⟩] ⟨2, 1, none, 34, 66, "Mid"⟩
      = .ok [⟨1, 1, none, 0, 33, "Low"⟩, ⟨2, 1, none, 34, 66, "Mid"⟩] := by
  refine ⟨?_, by rfl, by rfl⟩
  unfold ScoringRule.insertBand
  rw [if_neg (not_le.mpr h)]
  rcases hconf : ScoringRule.overlapConflict rules c.rid c.questionnaireId
      c.categoryId c.minPercentage c.maxPercentage with _ | e₀
  · constructor
    · rintro ⟨e, he⟩
      simp at he
    · rintro ⟨e, hmem, hprops⟩
      have hpred := (ScoringRule.overlapConflict_pred_iff c.rid c.questionnaireId
        c.categoryId c.minPercentage c.maxPercentage e).mpr ⟨hfresh e hmem, hprops⟩
      have hnone := List.find?_eq_none.mp hconf e hmem
      exact absurd hpred hnone
  · constructor
    · intro _
      have hmem := List.mem_of_find?_eq_some hconf
      have hpred := List.find?_some hconf
      exact ⟨e₀, hmem, ((ScoringRule.overlapConflict_pred_iff c.rid c.questionnaireId
        c.categoryId c.minPercentage c.maxPercentage e₀).mp hpred).2⟩
    · intro _
      exact ⟨e₀, rfl⟩

/-- Witness for C2: a fully overlapping candidate on a one-band store is
rejected with `RangeOverlap`. -/
theorem insertBand_rangeOverlap_iff_witness :
    ∃ e, ScoringRule.insertBand [⟨1, 1, none, 0, 33, "Low"⟩] ⟨2, 1, none, 20, 40, "Mid"⟩
      = .error (.rangeOverlap e) :=
  ((insertBand_rangeOverlap_iff [⟨1, 1, none, 0, 33, "Low"⟩] ⟨2, 1, none, 20, 40, "Mid"⟩
      (by decide) (by decide)).1).mpr
    ⟨⟨1, 1, none, 0, 33, "Low"⟩, by decide, by decide, by decide, by decide⟩

/-- C7: `getLevelForPercentage` only consults bands whose questionnaire and
category value both match, answers the level of the first band whose
closed range contains the percentage, and answers the sentinel "Unknown"
when no stored band matches; it is a pure read of the store. -/
theorem getLevel_first_match_or_unknown (rules : List ScoringRule) (qid : Nat)
    (cat : Option Nat) (p : Int) :
    ((∀ e ∈ rules, ¬(e.questionnaireId = qid ∧ e.categoryId = cat ∧
        e.minPercentage ≤ p ∧ p ≤ e.maxPercentage)) →
      ScoringRule.getLevelForPercentage rules qid cat p = "Unknown") ∧
    (∀ l₁ r l₂, rules = l₁ ++ r :: l₂ →
      (r.questionnaireId = qid ∧ r.categoryId = cat ∧
        r.minPercentage ≤ p ∧ p ≤ r.maxPercentage) →
      (∀ e ∈ l₁, ¬(e.questionnaireId = qid ∧ e.categoryId = cat ∧
        e.minPercentage ≤ p ∧ p ≤ e.maxPercentage)) →
      ScoringRule.getLevelForPercentage rules qid cat p = r.levelName) := by
  constructor
  · intro hnone
    unfold ScoringRule.getLevelForPercentage
    have hfind : rules.find? (ScoringRule.levelRuleMatch qid cat p) = none := by
      apply List.find?_eq_none.mpr
      intro e he hpred
      exact hnone e he ((ScoringRule.levelRuleMatch_iff qid cat p e).mp hpred)
    rw [hfind]
  · intro l₁ r l₂ hsplit hr hskip
    subst hsplit
    unfold ScoringRule.getLevelForPercentage
    have hfind₁ : l₁.find? (ScoringRule.levelRuleMatch qid cat p) = none := by
      apply List.find?_eq_none.mpr
      intro e he hpred
      exact hskip e he ((ScoringRule.levelRuleMatch_iff qid cat p e).mp hpred)
    rw [List.find?_append, hfind₁, Option.none_or,
      List.find?_cons_of_pos _ ((ScoringRule.levelRuleMatch_iff qid cat p r).mpr hr)]

/-- Witness for C7: with the single band {40,60,"Mid"} of the overall
scope, percentage 50 resolves to "Mid". -/
theorem getLevel_first_match_or_unknown_witness :
    ScoringRule.getLevelForPercentage [⟨1, 1, none, 40, 60, "Mid"⟩] 1 none 50 = "Mid" :=
  (getLevel_first_match_or_unknown [⟨1, 1, none, 40, 60, "Mid"⟩] 1 none 50).2
    [] ⟨1, 1, none, 40, 60, "Mid"⟩ [] rfl (by decide) (by simp)

namespace ScoringRule

end ScoringRule

namespace Question

theorem find?_doc_of_nodup (store : List Question) (x : Question)
    (hnd : (store.map Question.qid).Nodup) (hx : x ∈ store) :
    store.find? (fun q => q.qid == x.qid && q.questionnaireId == x.questionnaireId)
      = some x := by
  induction store with
  | nil => simp at hx
  | cons a t ih =>
    simp only [List.map_cons, List.nodup_cons] at hnd
    rcases List.mem_cons.mp hx with h | h
    · subst h
      apply List.find?_cons_of_pos
      simp
    · have hne : (a.qid == x.qid && a.questionnaireId == x.questionnaireId) = false := by
        simp only [Bool.and_eq_false_iff, beq_eq_false_iff_ne]
        left
        intro h1
        exact hnd.1 (h1 ▸ List.mem_map_of_mem Question.qid h)
      rw [List.find?_cons]
      simp only [hne]
      exact ih hnd.2 h

theorem le_max?_of_mem (l : List Int) (a m : Int) (h : l.max? = some m)
    (ha : a ∈ l) : a ≤ m := by
  have : Std.Antisymm (α := Int) (· ≤ ·) := ⟨@le_antisymm Int _⟩
  rw [List.max?_eq_some_iff] at h
  · exact h.2 a ha
  all_goals simp [le_total]

theorem orderNumber_lt_next (store : List Question) (qnn : Nat) :
    ∀ q ∈ store, q.questionnaireId = qnn →
      q.orderNumber < getNextOrderNumber store qnn := by
  intro q hq hqnn
  unfold getNextOrderNumber
  have hmem : q.orderNumber
      ∈ (store.filter fun r => r.questionnaireId == qnn).map Question.orderNumber :=
    List.mem_map_of_mem _ (List.mem_filter.mpr ⟨hq, by simp [hqnn]⟩)
  rcases hmax : ((store.filter fun r => r.questionnaireId == qnn).map
      Question.orderNumber).max? with _ | m
  · rw [List.max?_eq_none_iff] at hmax
    rw [hmax] at hmem
    simp at hmem
  · rw [hmax]
    show q.orderNumber < m + 1
    have := le_max?_of_mem _ _ _ hmax hmem
    omega

end Question

/-- C4 counterexample: with questions 1 and 2 of questionnaire 7 at orders
1 and 2, the pure swap batch [(1,2),(2,1)] fails: the first write already
collides with question 2 under the per-write uniqueness constraint, the
ordered bulk write aborts, and question 1 still holds order 1 afterwards. -/
theorem reorder_pure_swap_counterexample :
    Question.reorderQuestions [⟨1, 7, 1⟩, ⟨2, 7, 2⟩] 7 [(1, 2), (2, 1)]
      = ([⟨1, 7, 1⟩, ⟨2, 7, 2⟩], some (.duplicateOrder 1 2)) ∧
    (Question.reorderQuestions [⟨1, 7, 1⟩, ⟨2, 7, 2⟩] 7 [(1, 2), (2, 1)]).1.find?
      (fun q => q.qid == 1) = some ⟨1, 7, 1⟩ :=
  ⟨rfl, rfl⟩

/-- C4 amended: a pure swap of two questions of the same questionnaire
fails at its first item with `DuplicateOrder` — the first write would
duplicate the other question's current order number — and the batch aborts
with the store unchanged. -/
theorem reorder_swap_fails_first_item (store : List Question) (qnn id1 id2 : Nat)
    (a b : Int)
    (hnd : (store.map Question.qid).Nodup)
    (h1 : (⟨id1, qnn, a⟩ : Question) ∈ store)
    (h2 : (⟨id2, qnn, b⟩ : Question) ∈ store)
    (hne : id1 ≠ id2) :
    Question.reorderQuestions store qnn [(id1, b), (id2, a)]
      = (store, some (.duplicateOrder id1 b)) := by
  have hfind := Question.find?_doc_of_nodup store ⟨id1, qnn, a⟩ hnd h1
  have hbulk : Question.bulkUpdateOne store qnn id1 b
      = .error (.duplicateOrder id1 b) := by
    unfold Question.bulkUpdateOne
    rw [hfind]
    have hany : (store.any fun e =>
        e.qid != (⟨id1, qnn, a⟩ : Question).qid &&
        e.questionnaireId == (⟨id1, qnn, a⟩ : Question).questionnaireId &&
        e.orderNumber == b) = true := by
      apply List.any_eq_true.mpr
      refine ⟨⟨id2, qnn, b⟩, h2, ?_⟩
      simp [Ne.symm hne]
    simp [hany]
  simp [Question.reorderQuestions, hbulk]

/-- Witness for C4's amended theorem: the swap of questions 4 and 5 of
questionnaire 9, currently at orders 3 and 4. -/
theorem reorder_swap_fails_first_item_witness :
    Question.reorderQuestions [⟨4, 9, 3⟩, ⟨5, 9, 4⟩] 9 [(4, 4), (5, 3)]
      = ([⟨4, 9, 3⟩, ⟨5, 9, 4⟩], some (.duplicateOrder 4 4)) :=
  reorder_swap_fails_first_item [⟨4, 9, 3⟩, ⟨5, 9, 4⟩] 9 4 5 3 4
    (by decide) (by decide) (by decide) (by decide)

/-- C5 counterexample: in the batch [(1,2),(3,4)] over questions 1,2,3 of
questionnaire 7 at orders 1,2,3, the first item fails and the ordered bulk
write aborts: item (3,4) — individually applicable, as the second conjunct
shows — is never attempted, no item is applied, and no applied/failed
lists are produced. -/
theorem reorder_aborts_early_counterexample :
    Question.reorderQuestions [⟨1, 7, 1⟩, ⟨2, 7, 2⟩, ⟨3, 7, 3⟩] 7 [(1, 2), (3, 4)]
      = ([⟨1, 7, 1⟩, ⟨2, 7, 2⟩, ⟨3, 7, 3⟩], some (.duplicateOrder 1 2)) ∧
    Question.bulkUpdateOne [⟨1, 7, 1⟩, ⟨2, 7, 2⟩, ⟨3, 7, 3⟩] 7 3 4
      = .ok [⟨1, 7, 1⟩, ⟨2, 7, 2⟩, ⟨3, 7, 4⟩] :=
  ⟨rfl, rfl⟩

/-- C5 amended: `reorder` applies the items in order and aborts at the
first failing item: the items already applied stay in place, the failing
item's error is reported as the single batch error, and every item after
the failure is left unattempted. -/
theorem reorder_aborts_at_first_failure :
    ∀ (items₁ : List (Nat × Int)) (store s' : List Question) (qnn : Nat)
      (x : Nat × Int) (items₂ : List (Nat × Int)) (e : Question.OrderError),
      Question.reorderQuestions store qnn items₁ = (s', none) →
      Question.bulkUpdateOne s' qnn x.1 x.2 = .error e →
      Question.reorderQuestions store qnn (items₁ ++ x :: items₂)
        = (s', some e) := by
  intro items₁
  induction items₁ with
  | nil =>
    intro store s' qnn x items₂ e hpre hx
    have hss : store = s' := by
      simpa [Question.reorderQuestions] using congrArg Prod.fst hpre
    subst hss
    cases x with
    | mk xid xord => simp [Question.reorderQuestions, hx]
  | cons y t ih =>
    intro store s' qnn x items₂ e hpre hx
    cases y with
    | mk yid yord =>
      cases hb : Question.bulkUpdateOne store qnn yid yord with
      | error e' => simp [Question.reorderQuestions, hb] at hpre
      | ok s₁ =>
        simp only [Question.reorderQuestions, hb, List.cons_append] at hpre ⊢
        exact ih s₁ s' qnn x items₂ e hpre hx

/-- Witness for C5's amended theorem: item (3,5) is applied, then item
(1,2) fails and aborts the batch, leaving (2,1) unattempted. -/
theorem reorder_aborts_at_first_failure_witness :
    Question.reorderQuestions [⟨1, 7, 1⟩, ⟨2, 7, 2⟩, ⟨3, 7, 3⟩] 7
        [(3, 5), (1, 2), (2, 1)]
      = ([⟨1, 7, 1⟩, ⟨2, 7, 2⟩, ⟨3, 7, 5⟩], some (.duplicateOrder 1 2)) :=
  reorder_aborts_at_first_failure [(3, 5)] [⟨1, 7, 1⟩, ⟨2, 7, 2⟩, ⟨3, 7, 3⟩]
    [⟨1, 7, 1⟩, ⟨2, 7, 2⟩, ⟨3, 7, 5⟩] 7 (1, 2) [(2, 1)]
    (.duplicateOrder 1 2) rfl rfl

/-- C6 counterexample: `getNextOrderNumber` answers 1 on an empty
questionnaire and 2 after inserting order 1, but after deleting that
question it answers 1 again, not the claimed 2: the next number is
computed from the existing documents only, so a deleted maximum is
reused. -/
theorem nextOrder_after_delete_counterexample :
    Question.getNextOrderNumber ([] : List Question) 7 = 1 ∧
    Question.getNextOrderNumber [⟨1, 7, 1⟩] 7 = 2 ∧
    Question.deleteQuestion [⟨1, 7, 1⟩] 1 = [] ∧
    Question.getNextOrderNumber (Question.deleteQuestion [⟨1, 7, 1⟩] 1) 7 = 1 :=
  ⟨rfl, rfl, rfl, rfl⟩

/-- C6 amended: `getNextOrderNumber` is max existing order + 1, or 1 with
no questions: on an empty questionnaire it returns 1, after inserting
orderNumber 1 it returns 2, and after deleting that question it returns 1
again — the deleted maximum is reused. -/
theorem getNextOrderNumber_reuses_deleted_max (store : List Question)
    (qnn qid : Nat)
    (hnone : ∀ q ∈ store, q.questionnaireId ≠ qnn) :
    Question.getNextOrderNumber store qnn = 1 ∧
    Question.getNextOrderNumber (store ++ [⟨qid, qnn, 1⟩]) qnn = 2 ∧
    Question.getNextOrderNumber
      (Question.deleteQuestion (store ++ [⟨qid, qnn, 1⟩]) qid) qnn = 1 := by
  have hfil : store.filter (fun q => q.questionnaireId == qnn) = [] := by
    rw [List.filter_eq_nil_iff]
    intro q hq
    simp [hnone q hq]
  refine ⟨?_, ?_, ?_⟩
  · unfold Question.getNextOrderNumber
    rw [hfil]
    rfl
  · have hfil2 : (store ++ ([⟨qid, qnn, 1⟩] : List Question)).filter
        (fun q => q.questionnaireId == qnn) = [⟨qid, qnn, 1⟩] := by
      rw [List.filter_append, hfil, List.nil_append]
      simp [List.filter]
    unfold Question.getNextOrderNumber
    rw [hfil2]
    rfl
  · have hfil3 : (Question.deleteQuestion (store ++ [⟨qid, qnn, 1⟩]) qid).filter
        (fun q => q.questionnaireId == qnn) = [] := by
      rw [List.filter_eq_nil_iff]
      intro q hq
      unfold Question.deleteQuestion at hq
      have hmem := List.mem_of_mem_filter hq
      have hkeep := List.of_mem_filter hq
      rcases List.mem_append.mp hmem with h | h
      · simp [hnone q h]
      · simp only [List.mem_singleton] at h
        subst h
        simp at hkeep
    unfold Question.getNextOrderNumber
    rw [hfil3]
    rfl

/-- Witness for C6's amended theorem at the concrete empty store,
questionnaire 7, question id 1. -/
theorem getNextOrderNumber_reuses_deleted_max_witness :
    Question.getNextOrderNumber ([] : List Question) 7 = 1 ∧
    Question.getNextOrderNumber ([] ++ [⟨1, 7, 1⟩]) 7 = 2 ∧
    Question.getNextOrderNumber
      (Question.deleteQuestion ([] ++ [⟨1, 7, 1⟩]) 1) 7 = 1 :=
  getNextOrderNumber_reuses_deleted_max [] 7 1 (by simp)

/-- C9: creating a question with an explicit order number already used in
the same questionnaire fails with `DuplicateOrder` and inserts nothing;
the same number in another questionnaire (no collision in its own scope)
is inserted; with the order number omitted, the question is stored with
`getNextOrderNumber` of its questionnaire, which never collides. -/
theorem assignOnCreate_spec (store : List Question) (qid qnnId : Nat) (ord : Int) :
    ((∃ e ∈ store, e.questionnaireId = qnnId ∧ e.orderNumber = ord ∧ e.qid ≠ qid) →
      ord ≠ 0 →
      Question.assignOnCreate store qid qnnId (some ord)
        = .error (.duplicateOrder qid ord)) ∧
    ((∀ e ∈ store, ¬(e.questionnaireId = qnnId ∧ e.orderNumber = ord ∧ e.qid ≠ qid)) →
      ord ≠ 0 →
      Question.assignOnCreate store qid qnnId (some ord)
        = .ok (store ++ [⟨qid, qnnId, ord⟩])) ∧
    Question.assignOnCreate store qid qnnId none
      = .ok (store ++ [⟨qid, qnnId, Question.getNextOrderNumber store qnnId⟩]) := by
  refine ⟨?_, ?_, ?_⟩
  · rintro ⟨e, hmem, h1, h2, h3⟩ h0
    have hany : (store.any fun e =>
        e.questionnaireId == qnnId && e.orderNumber == ord && e.qid != qid) = true :=
      List.any_eq_true.mpr ⟨e, hmem, by simp [h1, h2, h3]⟩
    simp [Question.assignOnCreate, h0, hany]
  · intro hnone h0
    have hany : (store.any fun e =>
        e.questionnaireId == qnnId && e.orderNumber == ord && e.qid != qid) = false := by
      rw [List.any_eq_false]
      intro e hmem hpred
      apply hnone e hmem
      simpa [and_assoc] using hpred
    simp [Question.assignOnCreate, h0, hany]
  · have hany : (store.any fun e =>
        e.questionnaireId == qnnId &&
        e.orderNumber == Question.getNextOrderNumber store qnnId &&
        e.qid != qid) = false := by
      rw [List.any_eq_false]
      intro e hmem
      simp only [Bool.and_eq_true, beq_iff_eq, bne_iff_ne]
      rintro ⟨⟨h1, h2⟩, _⟩
      have := Question.orderNumber_lt_next store qnnId e hmem h1
      omega
    simp [Question.assignOnCreate, hany]

/-- Witness for C9: order 1 collides inside questionnaire 7 but is
accepted in questionnaire 8. -/
theorem assignOnCreate_spec_witness :
    Question.assignOnCreate [⟨1, 7, 1⟩] 2 7 (some 1)
      = .error (.duplicateOrder 2 1) ∧
    Question.assignOnCreate [⟨1, 7, 1⟩] 2 8 (some 1)
      = .ok [⟨1, 7, 1⟩, ⟨2, 8, 1⟩] :=
  ⟨(assignOnCreate_spec [⟨1, 7, 1⟩] 2 7 1).1
      ⟨⟨1, 7, 1⟩, by decide, by decide, by decide, by decide⟩ (by decide),
    (assignOnCreate_spec [⟨1, 7, 1⟩] 2 8 1).2.1 (by decide) (by decide)⟩
